import Mathlib

/-!
Verification of the shopping-cart / order core of the
Advanced-React-Ecommerce-Store repository.

The cart side embeds `src/store/cartSlice.tsx`: the `CartState` record, the
shared total-recomputation helper `calculateTotals`, the nine reducers, and
the sessionStorage mirror (`loadCartFromStorage` / `saveCartToStorage`).
Quantities and numeric ids are embedded as `ℤ` (TypeScript `number` used
integrally), prices and money as `ℚ` (exact decimal arithmetic; `Math.round`
is Mathlib's `round`, both round halves toward +∞).

The order side embeds the order service (`calculateOrderSummary`,
`createOrder`): the Firestore product collection is an association list,
effects (persisted orders, batched stock writes) are an explicit `World`
threaded through `createOrder`, and thrown errors are an `OrderError`
returned in `Except`.
-/

deriving instance DecidableEq for Except

namespace ECommerce

/-! ## Cart data model (src/types/cartTypes.tsx) -/

/-- Product as referenced by the cart (only the fields the cart logic
reads: `id` for line identity, `price` for totals). -/
structure CartProduct where
  id : ℤ
  price : ℚ
deriving DecidableEq, Repr

/-- A cart line: `{ id, product, quantity }` where `id` duplicates
`product.id`. -/
structure CartItem where
  id : ℤ
  product : CartProduct
  quantity : ℤ
deriving DecidableEq, Repr

/-- The cart slice state: `{ items, totalItems, totalPrice, isOpen }`. -/
structure CartState where
  items : List CartItem
  totalItems : ℤ
  totalPrice : ℚ
  isOpen : Bool
deriving DecidableEq, Repr

/-- Result of `calculateTotals`. -/
structure CartTotals where
  totalItems : ℤ
  totalPrice : ℚ
deriving DecidableEq, Repr

/-- `calculateTotals` (cartSlice.tsx lines 50-55): two `reduce` folds over
the items. -/
def calculateTotals (items : List CartItem) : CartTotals :=
  { totalItems := items.foldl (fun total item => total + item.quantity) 0
    totalPrice := items.foldl (fun total item => total + item.product.price * item.quantity) 0 }

/-- The recomputation block that ends every line-mutating reducer:
install the new items and overwrite both aggregates from
`calculateTotals`.  (`saveCartToStorage` is also called there; it does not
change the state.) -/
def recalculated (s : CartState) (items : List CartItem) : CartState :=
  let totals := calculateTotals items
  { s with items := items, totalItems := totals.totalItems, totalPrice := totals.totalPrice }

/-- Mutating `array.find(pred)`'s result in place, as the reducers do under
immer: rewrite the first element satisfying `p` by `f`, keep the rest. -/
def updateFirst {α : Type} (p : α → Bool) (f : α → α) : List α → List α
  | [] => []
  | x :: xs => if p x then f x :: xs else x :: updateFirst p f xs

/-! ## Cart reducers (cartSlice.tsx lines 61-198) -/

/-- `addToCart`: if a line with the product's id exists, add `quantity` to
the first such line; else push a new line.  Then recompute totals. -/
def addToCart (s : CartState) (product : CartProduct) (quantity : ℤ) : CartState :=
  let items :=
    if s.items.any (fun item => item.id == product.id) then
      updateFirst (fun item => item.id == product.id)
        (fun item => { item with quantity := item.quantity + quantity }) s.items
    else
      s.items ++ [{ id := product.id, product := product, quantity := quantity }]
  recalculated s items

/-- `removeFromCart`: drop every line whose id equals `productId`, then
recompute totals. -/
def removeFromCart (s : CartState) (productId : ℤ) : CartState :=
  recalculated s (s.items.filter (fun item => item.id != productId))

/-- `updateCartItemQuantity`: quantity ≤ 0 removes the line (same filter as
`removeFromCart`); otherwise the first matching line's quantity is set to
`quantity` (no-op on the items when absent).  Then recompute totals. -/
def updateCartItemQuantity (s : CartState) (productId : ℤ) (quantity : ℤ) : CartState :=
  let items :=
    if quantity ≤ 0 then
      s.items.filter (fun item => item.id != productId)
    else
      updateFirst (fun item => item.id == productId)
        (fun item => { item with quantity := quantity }) s.items
  recalculated s items

/-- `incrementQuantity`: only when a line matches, add 1 to the first
matching line and recompute; otherwise the state is untouched. -/
def incrementQuantity (s : CartState) (productId : ℤ) : CartState :=
  match s.items.find? (fun item => item.id == productId) with
  | none => s
  | some _ =>
      recalculated s (updateFirst (fun item => item.id == productId)
        (fun item => { item with quantity := item.quantity + 1 }) s.items)

/-- `decrementQuantity`: only when a line matches; a line at quantity ≤ 1 is
removed (filter), otherwise 1 is subtracted from the first matching line;
then recompute. -/
def decrementQuantity (s : CartState) (productId : ℤ) : CartState :=
  match s.items.find? (fun item => item.id == productId) with
  | none => s
  | some item =>
      let items :=
        if item.quantity ≤ 1 then
          s.items.filter (fun i => i.id != productId)
        else
          updateFirst (fun i => i.id == productId)
            (fun i => { i with quantity := i.quantity - 1 }) s.items
      recalculated s items

/-- `clearCart`: empty items, zero aggregates. -/
def clearCart (s : CartState) : CartState :=
  { s with items := [], totalItems := 0, totalPrice := 0 }

/-- `toggleCart`: flip `isOpen` only. -/
def toggleCart (s : CartState) : CartState :=
  { s with isOpen := ! s.isOpen }

/-- `openCart`: set `isOpen` only. -/
def openCart (s : CartState) : CartState :=
  { s with isOpen := true }

/-- `closeCart`: clear `isOpen` only. -/
def closeCart (s : CartState) : CartState :=
  { s with isOpen := false }

/-! ## Storage mirror (cartSlice.tsx lines 6-47) -/

/-- The shape serialized to sessionStorage: items plus the (not
re-verified) aggregates, `isOpen` deliberately dropped. -/
structure StoredCart where
  items : List CartItem
  totalItems : ℤ
  totalPrice : ℚ
deriving DecidableEq, Repr

/-- What `sessionStorage.getItem` + `JSON.parse` can yield: no entry under
the key, an entry that fails to parse, or a parsed cart. -/
inductive StoredValue where
  | absent : StoredValue
  | corrupt : StoredValue
  | stored : StoredCart → StoredValue
deriving DecidableEq, Repr

/-- The empty state returned when nothing (usable) is stored. -/
def emptyCartState : CartState :=
  { items := [], totalItems := 0, totalPrice := 0, isOpen := false }

/-- `saveCartToStorage`: serialize items and aggregates, not `isOpen`. -/
def saveCartToStorage (s : CartState) : StoredCart :=
  { items := s.items, totalItems := s.totalItems, totalPrice := s.totalPrice }

/-- `loadCartFromStorage`: on a parsed cart, keep its items, recompute the
aggregates from them, and start closed; on a missing or unparsable entry,
start empty. -/
def loadCartFromStorage : StoredValue → CartState
  | .stored c =>
      let totals := calculateTotals c.items
      { items := c.items, totalItems := totals.totalItems
        totalPrice := totals.totalPrice, isOpen := false }
  | _ => emptyCartState

/-! ## Cart operation language for reachability -/

/-- One dispatched cart action. -/
inductive CartOp where
  | add : CartProduct → ℤ → CartOp
  | remove : ℤ → CartOp
  | setQuantity : ℤ → ℤ → CartOp
  | increment : ℤ → CartOp
  | decrement : ℤ → CartOp
  | clear : CartOp
  | toggle : CartOp
  | opened : CartOp
  | closed : CartOp
deriving DecidableEq, Repr

/-- Dispatch one action. -/
def applyOp (s : CartState) : CartOp → CartState
  | .add p q => addToCart s p q
  | .remove pid => removeFromCart s pid
  | .setQuantity pid q => updateCartItemQuantity s pid q
  | .increment pid => incrementQuantity s pid
  | .decrement pid => decrementQuantity s pid
  | .clear => clearCart s
  | .toggle => toggleCart s
  | .opened => openCart s
  | .closed => closeCart s

/-- Dispatch a sequence of actions. -/
def applyOps (s : CartState) (ops : List CartOp) : CartState :=
  ops.foldl applyOp s

/-- The aggregate invariant: both stored aggregates equal the sums over the
lines. -/
def cartInvariant (s : CartState) : Prop :=
  s.totalItems = (s.items.map (fun item => item.quantity)).sum ∧
  s.totalPrice = (s.items.map (fun item => item.product.price * (item.quantity : ℚ))).sum

/-- First-match quantity lookup, the observation used to phrase the
reducer contracts. -/
def qtyOf (items : List CartItem) (productId : ℤ) : ℤ :=
  match items.find? (fun item => item.id == productId) with
  | some item => item.quantity
  | none => 0

/-- No two cart lines share an id. -/
def nodupIds (s : CartState) : Prop :=
  (s.items.map (fun item => item.id)).Nodup

/-- Concrete product for the scenario witnesses: id 1, price 10.00. -/
def p10 : CartProduct := { id := 1, price := 10 }

/-- Concrete one-line cart reached by adding `p10` once to the empty
cart. -/
def s10 : CartState := addToCart emptyCartState p10 1

/-! ## Order data model (src/types/orderType.tsx, productType) -/

/-- Inventory block of a Firestore product: `{ stock, trackInventory }`
(the optional `sku` is never read by the order logic). -/
structure Inventory where
  stock : ℤ
  trackInventory : Bool
deriving DecidableEq, Repr

/-- Firestore product, restricted to the fields the order service reads:
`id`, `title`, `price`, `inventory`. -/
structure Product where
  id : String
  title : String
  price : ℚ
  inventory : Inventory
deriving DecidableEq, Repr

/-- An order line as built by `createOrder` (the random per-item `id`
string is pure identity decoration and is omitted). -/
structure OrderItem where
  productId : String
  product : Product
  quantity : ℤ
  priceAtTime : ℚ
  totalPrice : ℚ
deriving DecidableEq, Repr

/-- `OrderSummary`: `{ subtotal, tax, shipping, discount, total }`. -/
structure OrderSummary where
  subtotal : ℚ
  tax : ℚ
  shipping : ℚ
  discount : ℚ
  total : ℚ
deriving DecidableEq, Repr

/-- `Math.round(x * 100) / 100`: Mathlib `round` and JS `Math.round` both
send halves toward +∞. -/
def round2 (x : ℚ) : ℚ := round (x * 100) / 100

/-- `calculateOrderSummary` (order service lines 48-66). -/
def calculateOrderSummary (items : List OrderItem) : OrderSummary :=
  let subtotal := items.foldl (fun sum item => sum + item.totalPrice) 0
  let taxRate : ℚ := 8 / 100
  let tax := subtotal * taxRate
  let shipping : ℚ := if 50 < subtotal then 0 else 999 / 100
  let discount : ℚ := 0
  let total := subtotal + tax + shipping - discount
  { subtotal := round2 subtotal
    tax := round2 tax
    shipping := round2 shipping
    discount := round2 discount
    total := round2 total }

/-- One requested line of `CreateOrderData`. -/
structure CreateOrderItem where
  productId : String
  quantity : ℤ
deriving DecidableEq, Repr

/-- `CreateOrderData`, restricted to the `items` the order computation
reads (shipping address, payment method and notes are copied through
untouched). -/
structure CreateOrderData where
  items : List CreateOrderItem
deriving DecidableEq, Repr

/-- The distinct failure messages `createOrder` can throw before any
persistence happens. -/
inductive OrderError where
  | notAuthenticated : OrderError
  | emptyOrder : OrderError
  | productNotFound : String → OrderError
  | insufficientStock : String → ℤ → ℤ → OrderError
deriving DecidableEq, Repr

/-- The produced order, restricted to the computed fields (`orderNumber`,
timestamps and the constant pending statuses are decoration). -/
structure Order where
  userId : String
  items : List OrderItem
  summary : OrderSummary
deriving DecidableEq, Repr

/-- The Firestore products collection, as an association list from
document id to product. -/
abbrev Catalog : Type := List (String × Product)

/-- `getProductById`: fetch a product document, `none` when absent. -/
def getProductById (catalog : Catalog) (productId : String) : Option Product :=
  (catalog.find? (fun entry => entry.1 == productId)).map (fun entry => entry.2)

/-- Observable steps of createOrder's per-line loop: the product fetch for
a line, and the stock validation for a line. -/
inductive OrderEvent where
  | fetch : ℕ → OrderEvent
  | check : ℕ → OrderEvent
deriving DecidableEq, Repr

/-- The `for (const item of orderData.items)` loop of `createOrder`
(lines 89-110), instrumented with the fetch/check events it performs, in
order.  Line `n` is fetched; a missing product aborts with
`productNotFound`; otherwise the stock validation for line `n` runs,
aborting with `insufficientStock` when the product tracks inventory and
has less stock than requested; otherwise the `OrderItem` snapshot is built
and the loop continues with the next line. -/
def processItemsTrace (catalog : Catalog) :
    List CreateOrderItem → ℕ → Except OrderError (List OrderItem) × List OrderEvent
  | [], _ => (.ok [], [])
  | item :: rest, n =>
    match getProductById catalog item.productId with
    | none => (.error (.productNotFound item.productId), [.fetch n])
    | some product =>
        if product.inventory.trackInventory && decide (product.inventory.stock < item.quantity) then
          (.error (.insufficientStock product.title product.inventory.stock item.quantity),
            [.fetch n, .check n])
        else
          let orderItem : OrderItem :=
            { productId := product.id
              product := product
              quantity := item.quantity
              priceAtTime := product.price
              totalPrice := round2 (product.price * (item.quantity : ℚ)) }
          match processItemsTrace catalog rest (n + 1) with
          | (.error e, tr) => (.error e, .fetch n :: .check n :: tr)
          | (.ok rest', tr) => (.ok (orderItem :: rest'), .fetch n :: .check n :: tr)

/-- The loop's result, events dropped. -/
def processItems (catalog : Catalog) (items : List CreateOrderItem) :
    Except OrderError (List OrderItem) :=
  (processItemsTrace catalog items 0).1

/-- The world the order service mutates: the persisted orders collection
and the products collection. -/
structure World where
  orders : List Order
  catalog : Catalog
deriving DecidableEq, Repr

/-- One write of the stock batch (lines 147-157): for an
inventory-tracking line, set the product document's stock to the
snapshot's stock minus the ordered quantity. -/
def applyStockUpdate (catalog : Catalog) (item : OrderItem) : Catalog :=
  if item.product.inventory.trackInventory then
    catalog.map (fun entry =>
      if entry.1 == item.productId then
        (entry.1, { entry.2 with inventory :=
          { entry.2.inventory with stock := item.product.inventory.stock - item.quantity } })
      else entry)
  else catalog

/-- The whole stock batch. -/
def applyStockUpdates (catalog : Catalog) (items : List OrderItem) : Catalog :=
  items.foldl applyStockUpdate catalog

/-- `createOrder` (lines 71-174): authentication check, empty-cart check,
the per-line fetch/validate/snapshot loop, summary computation, then — on
success only — the order is persisted and the stock batch committed. -/
def createOrder (user : Option String) (orderData : CreateOrderData) (w : World) :
    Except OrderError Order × World :=
  match user with
  | none => (.error .notAuthenticated, w)
  | some uid =>
      if orderData.items.isEmpty then (.error .emptyOrder, w)
      else
        match processItems w.catalog orderData.items with
        | .error e => (.error e, w)
        | .ok orderItems =>
            let order : Order :=
              { userId := uid, items := orderItems, summary := calculateOrderSummary orderItems }
            (.ok order,
              { orders := w.orders ++ [order]
                catalog := applyStockUpdates w.catalog orderItems })

/-- A trace whose events are, per line starting at `n`, the line's fetch
immediately followed by the line's stock check, with the next line's fetch
only after that check — possibly ending right after a fetch (missing
product) or after a check (stock failure or end of items). -/
inductive PerLineTrace : ℕ → List OrderEvent → Prop where
  | done : ∀ n, PerLineTrace n []
  | fetchFail : ∀ n, PerLineTrace n [.fetch n]
  | fetchCheck : ∀ n tr, PerLineTrace (n + 1) tr → PerLineTrace n (.fetch n :: .check n :: tr)

/-- Whether a result is the insufficient-stock failure. -/
def isInsufficientStockError : Except OrderError Order → Bool
  | .error (.insufficientStock _ _ _) => true
  | _ => false

/-- The requested line's product exists in the catalog. -/
def lineFound (catalog : Catalog) (item : CreateOrderItem) : Bool :=
  (getProductById catalog item.productId).isSome

/-- The requested line's product exists, tracks inventory, and has less
stock than the line requests. -/
def lineOutOfStock (catalog : Catalog) (item : CreateOrderItem) : Bool :=
  match getProductById catalog item.productId with
  | some p => p.inventory.trackInventory && decide (p.inventory.stock < item.quantity)
  | none => false

/-- A rational that is a whole number of cents. -/
def IsCents (x : ℚ) : Prop := ∃ k : ℤ, x = (k : ℚ) / 100

/-! ## Concrete order-side inputs for witnesses and counterexamples -/

/-- Price-30 product, inventory not tracked. -/
def prod30 : Product :=
  { id := "p1", title := "P1", price := 30, inventory := { stock := 5, trackInventory := false } }

/-- Price-80 product, inventory not tracked. -/
def prod80 : Product :=
  { id := "p2", title := "P2", price := 80, inventory := { stock := 5, trackInventory := false } }

/-- World holding the two scenario-3 products. -/
def world110 : World := { orders := [], catalog := [("p1", prod30), ("p2", prod80)] }

/-- Scenario-3 request: one unit of each. -/
def data110 : CreateOrderData :=
  { items := [{ productId := "p1", quantity := 1 }, { productId := "p2", quantity := 1 }] }

/-- The order scenario 3 produces. -/
def order110 : Order :=
  { userId := "u"
    items :=
      [{ productId := "p1", product := prod30, quantity := 1, priceAtTime := 30, totalPrice := 30 },
       { productId := "p2", product := prod80, quantity := 1, priceAtTime := 80, totalPrice := 80 }]
    summary := { subtotal := 110, tax := 8.8, shipping := 0, discount := 0, total := 118.8 } }

/-- Tracked product with zero stock (scenario 4). -/
def prodOut : Product :=
  { id := "p1", title := "P1", price := 30, inventory := { stock := 0, trackInventory := true } }

/-- World holding only the out-of-stock tracked product. -/
def worldOut : World := { orders := [], catalog := [("p1", prodOut)] }

/-- Scenario-4 request: one unit of the out-of-stock product. -/
def dataOut : CreateOrderData := { items := [{ productId := "p1", quantity := 1 }] }

/-- First line's product missing, second line out of stock. -/
def dataMixed : CreateOrderData :=
  { items := [{ productId := "pA", quantity := 1 }, { productId := "p1", quantity := 1 }] }

/-- First line out of stock, second line's product missing. -/
def dataMixed2 : CreateOrderData :=
  { items := [{ productId := "p1", quantity := 1 }, { productId := "pB", quantity := 1 }] }

/-! ## Basic lemmas about the cart embedding -/

theorem foldl_add_eq {α M : Type} [AddCommMonoid M] (f : α → M) (l : List α) (init : M) :
    l.foldl (fun total a => total + f a) init = init + (l.map f).sum := by
  induction l generalizing init with
  | nil => simp
  | cons a l ih => simp [ih, add_assoc]

theorem calculateTotals_totalItems (items : List CartItem) :
    (calculateTotals items).totalItems = (items.map (fun item => item.quantity)).sum := by
  simp [calculateTotals, foldl_add_eq]

theorem calculateTotals_totalPrice (items : List CartItem) :
    (calculateTotals items).totalPrice =
      (items.map (fun item => item.product.price * (item.quantity : ℚ))).sum := by
  simp [calculateTotals, foldl_add_eq]

theorem cartInvariant_recalculated (s : CartState) (items : List CartItem) :
    cartInvariant (recalculated s items) := by
  constructor
  · simp [recalculated, calculateTotals_totalItems]
  · simp [recalculated, calculateTotals_totalPrice]

theorem cartInvariant_applyOp (s : CartState) (op : CartOp) (h : cartInvariant s) :
    cartInvariant (applyOp s op) := by
  cases op with
  | add p q => exact cartInvariant_recalculated _ _
  | remove pid => exact cartInvariant_recalculated _ _
  | setQuantity pid q => exact cartInvariant_recalculated _ _
  | increment pid =>
      simp only [applyOp, incrementQuantity]
      split
      · exact h
      · exact cartInvariant_recalculated _ _
  | decrement pid =>
      simp only [applyOp, decrementQuantity]
      split
      · exact h
      · exact cartInvariant_recalculated _ _
  | clear => constructor <;> simp [applyOp, clearCart]
  | toggle => exact ⟨by simpa [applyOp, toggleCart] using h.1, by simpa [applyOp, toggleCart] using h.2⟩
  | opened => exact ⟨by simpa [applyOp, openCart] using h.1, by simpa [applyOp, openCart] using h.2⟩
  | closed => exact ⟨by simpa [applyOp, closeCart] using h.1, by simpa [applyOp, closeCart] using h.2⟩

theorem cartInvariant_applyOps (s : CartState) (ops : List CartOp) (h : cartInvariant s) :
    cartInvariant (applyOps s ops) := by
  induction ops generalizing s with
  | nil => exact h
  | cons op ops ih => exact ih _ (cartInvariant_applyOp _ _ h)

theorem cartInvariant_load (sv : StoredValue) : cartInvariant (loadCartFromStorage sv) := by
  cases sv with
  | stored c =>
      constructor
      · simp [loadCartFromStorage, calculateTotals_totalItems]
      · simp [loadCartFromStorage, calculateTotals_totalPrice]
  | absent => constructor <;> simp [loadCartFromStorage, emptyCartState]
  | corrupt => constructor <;> simp [loadCartFromStorage, emptyCartState]

/-- C1: in every CartState reachable from the restored-or-empty initial
state by any sequence of the cart operations, `totalItems` equals the sum
of the line quantities and `totalPrice` equals the sum of
`price * quantity` over the lines, exactly. -/
theorem reachable_cart_totals_invariant (sv : StoredValue) (ops : List CartOp) :
    cartInvariant (applyOps (loadCartFromStorage sv) ops) :=
  cartInvariant_applyOps _ _ (cartInvariant_load sv)

/-! ## Uniqueness of product ids among cart lines -/

theorem updateFirst_map_eq {α β : Type} (p : α → Bool) (f : α → α) (g : α → β)
    (hf : ∀ a, g (f a) = g a) (l : List α) :
    (updateFirst p f l).map g = l.map g := by
  induction l with
  | nil => rfl
  | cons x xs ih =>
      by_cases h : p x
      · simp [updateFirst, h, hf]
      · simp [updateFirst, h, ih]

theorem nodup_ids_filter (l : List CartItem) (q : CartItem → Bool)
    (h : (l.map (fun item => item.id)).Nodup) :
    ((l.filter q).map (fun item => item.id)).Nodup :=
  h.sublist ((l.filter_sublist).map _)

theorem nodupIds_applyOp (s : CartState) (op : CartOp) (h : nodupIds s) :
    nodupIds (applyOp s op) := by
  cases op with
  | add p q =>
      simp only [applyOp, addToCart, recalculated, nodupIds] at h ⊢
      by_cases hmem : s.items.any (fun item => item.id == p.id)
      · rw [if_pos hmem, updateFirst_map_eq]
        · exact h
        · intro a; rfl
      · rw [if_neg hmem]
        have hnot : p.id ∉ s.items.map (fun item => item.id) := by
          intro hin
          rcases List.mem_map.mp hin with ⟨a, ha, hid⟩
          exact hmem (List.any_eq_true.mpr ⟨a, ha, by simp [hid]⟩)
        simp only [List.map_append, List.map_cons, List.map_nil, List.nodup_append]
        exact ⟨h, List.nodup_singleton _, by simpa [List.disjoint_right] using hnot⟩
  | remove pid => exact nodup_ids_filter _ _ h
  | setQuantity pid q =>
      simp only [applyOp, updateCartItemQuantity, recalculated, nodupIds] at h ⊢
      by_cases hq : q ≤ 0
      · rw [if_pos hq]; exact nodup_ids_filter _ _ h
      · rw [if_neg hq, updateFirst_map_eq]
        · exact h
        · intro a; rfl
  | increment pid =>
      simp only [applyOp, incrementQuantity]
      split
      · exact h
      · simp only [nodupIds, recalculated] at h ⊢
        rw [updateFirst_map_eq]
        · exact h
        · intro a; rfl
  | decrement pid =>
      simp only [applyOp, decrementQuantity]
      split
      · exact h
      · simp only [nodupIds, recalculated] at h ⊢
        split
        · exact nodup_ids_filter _ _ h
        · rw [updateFirst_map_eq]
          · exact h
          · intro a; rfl
  | clear => simp [applyOp, clearCart, nodupIds]
  | toggle => simpa [applyOp, toggleCart, nodupIds] using h
  | opened => simpa [applyOp, openCart, nodupIds] using h
  | closed => simpa [applyOp, closeCart, nodupIds] using h

/-- C8: from any starting state whose lines have pairwise-distinct ids
(the empty initial state included), every sequence of cart operations
leads to a state whose lines still have pairwise-distinct ids. -/
theorem reachable_cart_ids_nodup (s : CartState) (ops : List CartOp) (h : nodupIds s) :
    nodupIds (applyOps s ops) := by
  induction ops generalizing s with
  | nil => exact h
  | cons op ops ih => exact ih _ (nodupIds_applyOp _ _ h)

/-- C8 witness: the uniqueness theorem applied to the empty initial state
and a concrete operation sequence that adds, re-adds, and decrements. -/
theorem reachable_cart_ids_nodup_witness :
    nodupIds (applyOps emptyCartState
      [CartOp.add ⟨1, 10⟩ 1, CartOp.add ⟨2, 5⟩ 2, CartOp.add ⟨1, 10⟩ 1,
       CartOp.decrement 2, CartOp.toggle]) :=
  reachable_cart_ids_nodup emptyCartState _ (by simp [nodupIds, emptyCartState])

/-! ## find? and updateFirst interaction -/

theorem updateFirst_of_find?_none {α : Type} (p : α → Bool) (f : α → α) (l : List α)
    (h : l.find? p = none) : updateFirst p f l = l := by
  induction l with
  | nil => rfl
  | cons x xs ih =>
      by_cases hx : p x
      · simp [List.find?_cons_of_pos _ hx] at h
      · rw [List.find?_cons_of_neg _ hx] at h
        simp [updateFirst, hx, ih h]

theorem find?_updateFirst {α : Type} (p : α → Bool) (f : α → α) (l : List α) (a : α)
    (h : l.find? p = some a) (hp : p (f a) = true) :
    (updateFirst p f l).find? p = some (f a) := by
  induction l with
  | nil => simp at h
  | cons x xs ih =>
      by_cases hx : p x
      · rw [List.find?_cons_of_pos _ hx] at h
        cases h
        simp [updateFirst, hx, List.find?_cons_of_pos _ hp]
      · rw [List.find?_cons_of_neg _ hx] at h
        simp [updateFirst, hx, List.find?_cons_of_neg _ hx, ih h]

theorem updateFirst_length {α : Type} (p : α → Bool) (f : α → α) (l : List α) :
    (updateFirst p f l).length = l.length := by
  induction l with
  | nil => rfl
  | cons x xs ih =>
      by_cases hx : p x <;> simp [updateFirst, hx, ih]

theorem mem_updateFirst {α : Type} (p : α → Bool) (f : α → α) (l : List α) (a : α)
    (h : l.find? p = some a) (b : α) (hb : b ∈ updateFirst p f l) :
    b ∈ l ∨ b = f a := by
  induction l with
  | nil => simp at h
  | cons x xs ih =>
      by_cases hx : p x
      · rw [List.find?_cons_of_pos _ hx] at h
        cases h
        rw [updateFirst, if_pos hx] at hb
        rcases List.mem_cons.mp hb with hb | hb
        · exact Or.inr hb
        · exact Or.inl (List.mem_cons_of_mem _ hb)
      · rw [List.find?_cons_of_neg _ hx] at h
        rw [updateFirst, if_neg hx] at hb
        rcases List.mem_cons.mp hb with hb | hb
        · exact Or.inl (hb ▸ List.mem_cons_self _ _)
        · rcases ih h hb with hb | hb
          · exact Or.inl (List.mem_cons_of_mem _ hb)
          · exact Or.inr hb

theorem find?_append_of_none {α : Type} (p : α → Bool) (l₁ l₂ : List α)
    (h : l₁.find? p = none) : (l₁ ++ l₂).find? p = l₂.find? p := by
  induction l₁ with
  | nil => rfl
  | cons x xs ih =>
      by_cases hx : p x
      · simp [List.find?_cons_of_pos _ hx] at h
      · rw [List.find?_cons_of_neg _ hx] at h
        simp [List.find?_cons_of_neg _ hx, ih h]

theorem any_of_find?_some {α : Type} (p : α → Bool) (l : List α) (a : α)
    (h : l.find? p = some a) : l.any p = true :=
  List.any_eq_true.mpr ⟨a, List.mem_of_find?_eq_some h, List.find?_some h⟩

theorem not_any_of_find?_none {α : Type} (p : α → Bool) (l : List α)
    (h : l.find? p = none) : l.any p = false := by
  rw [List.any_eq_false]
  intro x hx
  simpa using List.find?_eq_none.mp h x hx

/-! ## C5: addToCart contract -/

/-- C5: if a line with the product's id already exists, `addToCart` adds
`q` to the first-matching line's quantity and creates no new line; else it
appends one new line with quantity `q`; in both cases the aggregates are
recomputed from the resulting lines. -/
theorem addToCart_spec (s : CartState) (p : CartProduct) (q : ℤ) :
    (s.items.find? (fun item => item.id == p.id) = none →
        (addToCart s p q).items = s.items ++ [{ id := p.id, product := p, quantity := q }]) ∧
    ((∃ item, s.items.find? (fun item => item.id == p.id) = some item) →
        (addToCart s p q).items.length = s.items.length) ∧
    qtyOf (addToCart s p q).items p.id = qtyOf s.items p.id + q ∧
    (addToCart s p q).totalItems = (calculateTotals (addToCart s p q).items).totalItems ∧
    (addToCart s p q).totalPrice = (calculateTotals (addToCart s p q).items).totalPrice := by
  refine ⟨?_, ?_, ?_, rfl, rfl⟩
  · intro h
    simp only [addToCart, recalculated]
    rw [if_neg (by simp [not_any_of_find?_none _ _ h])]
  · rintro ⟨item, h⟩
    simp only [addToCart, recalculated]
    rw [if_pos (any_of_find?_some _ _ _ h), updateFirst_length]
  · cases hf : s.items.find? (fun item => item.id == p.id) with
    | none =>
        simp only [addToCart, recalculated, qtyOf, hf]
        rw [if_neg (by simp [not_any_of_find?_none _ _ hf]),
          find?_append_of_none _ _ _ hf]
        simp [List.find?_cons_of_pos]
    | some item =>
        simp only [addToCart, recalculated, qtyOf, hf]
        rw [if_pos (any_of_find?_some _ _ _ hf),
          find?_updateFirst _ _ _ _ hf (by simpa using List.find?_some hf)]

/-- C5 witness: adding the price-10.00 product a second time to the
one-line cart `s10` hits the existing-line branch: still one line, now
quantity 2, totalPrice 20.00, totalItems 2. -/
theorem addToCart_spec_witness :
    (∃ item, s10.items.find? (fun item => item.id == p10.id) = some item) ∧
    (addToCart s10 p10 1).items.length = s10.items.length ∧
    qtyOf (addToCart s10 p10 1).items p10.id = qtyOf s10.items p10.id + 1 ∧
    (addToCart s10 p10 1).items.length = 1 ∧
    qtyOf (addToCart s10 p10 1).items 1 = 2 ∧
    (addToCart s10 p10 1).totalPrice = 20 ∧
    (addToCart s10 p10 1).totalItems = 2 := by
  refine ⟨⟨{ id := 1, product := p10, quantity := 1 }, by decide⟩,
    (addToCart_spec s10 p10 1).2.1 ⟨{ id := 1, product := p10, quantity := 1 }, by decide⟩,
    (addToCart_spec s10 p10 1).2.2.1, by decide, by decide, ?_, by decide⟩
  norm_num [s10, p10, emptyCartState, addToCart, recalculated, calculateTotals, updateFirst]

/-! ## C6: updateCartItemQuantity contract -/

/-- C6: with quantity ≤ 0, `updateCartItemQuantity` produces exactly the
state `removeFromCart` produces; with quantity > 0 it sets the
first-matching line's quantity to `q` without changing the number of
lines, and leaves the lines untouched when no line matches. -/
theorem updateCartItemQuantity_spec (s : CartState) (productId q : ℤ) :
    (q ≤ 0 → updateCartItemQuantity s productId q = removeFromCart s productId) ∧
    (0 < q →
      (∀ item, s.items.find? (fun item => item.id == productId) = some item →
          qtyOf (updateCartItemQuantity s productId q).items productId = q ∧
          (updateCartItemQuantity s productId q).items.length = s.items.length) ∧
      (s.items.find? (fun item => item.id == productId) = none →
          (updateCartItemQuantity s productId q).items = s.items)) := by
  constructor
  · intro hq
    simp only [updateCartItemQuantity, removeFromCart]
    rw [if_pos hq]
  · intro hq
    have hq' : ¬ q ≤ 0 := not_le.mpr hq
    constructor
    · intro item hfind
      simp only [updateCartItemQuantity, recalculated, qtyOf]
      rw [if_neg hq', find?_updateFirst _ _ _ _ hfind (by simpa using List.find?_some hfind)]
      exact ⟨rfl, updateFirst_length _ _ _⟩
    · intro hfind
      simp only [updateCartItemQuantity, recalculated]
      rw [if_neg hq', updateFirst_of_find?_none _ _ _ hfind]

/-- C6 witness: `setQuantity` to 0 on the one-line cart `s10` containing
product id 1 coincides with removing that product. -/
theorem updateCartItemQuantity_spec_witness :
    updateCartItemQuantity s10 1 0 = removeFromCart s10 1 :=
  (updateCartItemQuantity_spec s10 1 0).1 (by decide)

/-! ## C7: decrementQuantity contract -/

/-- C7: on a matching line at quantity 1, `decrementQuantity` yields the
very state `removeFromCart` yields (the line is gone); on a matching line
at quantity ≥ 2 it lowers that line's quantity by exactly 1 and keeps the
line count; and it never introduces a line with quantity below 1. -/
theorem decrementQuantity_spec (s : CartState) (productId : ℤ) :
    (∀ item, s.items.find? (fun item => item.id == productId) = some item →
        (item.quantity = 1 → decrementQuantity s productId = removeFromCart s productId) ∧
        (2 ≤ item.quantity →
            qtyOf (decrementQuantity s productId).items productId = item.quantity - 1 ∧
            (decrementQuantity s productId).items.length = s.items.length)) ∧
    ((∀ i ∈ s.items, 1 ≤ i.quantity) →
        ∀ i ∈ (decrementQuantity s productId).items, 1 ≤ i.quantity) := by
  constructor
  · intro item hfind
    constructor
    · intro h1
      simp only [decrementQuantity, hfind, removeFromCart]
      rw [if_pos (by omega)]
    · intro h2
      simp only [decrementQuantity, hfind, recalculated, qtyOf]
      rw [if_neg (show ¬ item.quantity ≤ 1 by omega),
        find?_updateFirst _ _ _ _ hfind (by simpa using List.find?_some hfind)]
      exact ⟨rfl, updateFirst_length _ _ _⟩
  · intro hpos
    cases hfind : s.items.find? (fun item => item.id == productId) with
    | none =>
        simp only [decrementQuantity, hfind]
        exact hpos
    | some item =>
        simp only [decrementQuantity, hfind, recalculated]
        by_cases h1 : item.quantity ≤ 1
        · rw [if_pos h1]
          intro i hi
          exact hpos i (List.mem_of_mem_filter hi)
        · rw [if_neg h1]
          intro i hi
          rcases mem_updateFirst _ _ _ _ hfind i hi with hmem | hmem
          · exact hpos i hmem
          · subst hmem
            show (1:ℤ) ≤ item.quantity - 1
            omega

/-- C7 witness: decrementing the only line of `s10` (quantity 1) removes
it: the result coincides with `removeFromCart`, leaving zero lines and
totalItems 0. -/
theorem decrementQuantity_spec_witness :
    decrementQuantity s10 1 = removeFromCart s10 1 ∧
    (decrementQuantity s10 1).items = [] ∧
    (decrementQuantity s10 1).totalItems = 0 :=
  ⟨((decrementQuantity_spec s10 1).1 { id := 1, product := p10, quantity := 1 }
      (by decide)).1 (by decide), by decide, by decide⟩

/-! ## C9: persistence round trip -/

/-- C9: restoring a persisted cart keeps its lines verbatim, recomputes
both aggregates from those lines (whatever aggregates were persisted), and
starts closed; an absent or unparsable stored value restores to the empty
cart. -/
theorem cart_storage_roundtrip (s : CartState) :
    (loadCartFromStorage (.stored (saveCartToStorage s))).items = s.items ∧
    (loadCartFromStorage (.stored (saveCartToStorage s))).totalItems =
      (calculateTotals s.items).totalItems ∧
    (loadCartFromStorage (.stored (saveCartToStorage s))).totalPrice =
      (calculateTotals s.items).totalPrice ∧
    (loadCartFromStorage (.stored (saveCartToStorage s))).isOpen = false ∧
    loadCartFromStorage .absent = emptyCartState ∧
    loadCartFromStorage .corrupt = emptyCartState :=
  ⟨rfl, rfl, rfl, rfl, rfl, rfl⟩

/-! ## C10: order of product lookups and stock checks -/

/-- C10 counterexample: with line 0 out of stock and line 1's product
absent, the loop's event trace is fetch 0, check 0 — line 0's stock check
ran although line 1's fetch never completed — and the call fails with the
stock error, not with the missing-product error the claim predicts. -/
theorem createOrder_lookup_ordering_counterexample :
    (processItemsTrace worldOut.catalog dataMixed2.items 0).2 =
      [OrderEvent.fetch 0, OrderEvent.check 0] ∧
    OrderEvent.check 0 ∈ (processItemsTrace worldOut.catalog dataMixed2.items 0).2 ∧
    OrderEvent.fetch 1 ∉ (processItemsTrace worldOut.catalog dataMixed2.items 0).2 ∧
    dataMixed2.items.length = 2 ∧
    getProductById worldOut.catalog "pB" = none ∧
    createOrder (some "u") dataMixed2 worldOut =
      (.error (.insufficientStock "P1" 0 1), worldOut) := by
  decide

/-- C10 amended: the loop interleaves strictly per line — each line's
fetch is immediately followed by that line's stock check, and the next
line's fetch happens only after that check — so a stock failure on an
earlier line is reported even when a later line's product is missing. -/
theorem processItems_per_line_trace (catalog : Catalog) (reqs : List CreateOrderItem) (n : ℕ) :
    PerLineTrace n (processItemsTrace catalog reqs n).2 := by
  induction reqs generalizing n with
  | nil => exact .done n
  | cons item rest ih =>
      simp only [processItemsTrace]
      split
      · exact .fetchFail n
      · split
        · exact .fetchCheck n [] (.done (n + 1))
        · split
          · rename_i e tr hrec
            have h := ih (n + 1)
            rw [hrec] at h
            exact .fetchCheck n tr h
          · rename_i rest' tr hrec
            have h := ih (n + 1)
            rw [hrec] at h
            exact .fetchCheck n tr h

/-! ## C4: insufficient stock aborts before any effect -/

theorem processItemsTrace_insufficient (catalog : Catalog) (reqs : List CreateOrderItem) (n : ℕ)
    (hfound : reqs.all (lineFound catalog) = true)
    (hbad : reqs.any (lineOutOfStock catalog) = true) :
    ∃ item p, item ∈ reqs ∧ getProductById catalog item.productId = some p ∧
      p.inventory.trackInventory = true ∧ p.inventory.stock < item.quantity ∧
      (processItemsTrace catalog reqs n).1 =
        .error (.insufficientStock p.title p.inventory.stock item.quantity) := by
  induction reqs generalizing n with
  | nil => simp at hbad
  | cons item rest ih =>
      rw [List.all_cons, Bool.and_eq_true] at hfound
      obtain ⟨hf1, hfrest⟩ := hfound
      obtain ⟨p, hp⟩ : ∃ p, getProductById catalog item.productId = some p := by
        cases hgp : getProductById catalog item.productId with
        | none => simp [lineFound, hgp] at hf1
        | some p => exact ⟨p, rfl⟩
      simp only [processItemsTrace, hp]
      by_cases hc : (p.inventory.trackInventory && decide (p.inventory.stock < item.quantity)) = true
      · rw [if_pos hc]
        have hc' : p.inventory.trackInventory = true ∧ p.inventory.stock < item.quantity := by
          simpa using hc
        exact ⟨item, p, List.mem_cons_self _ _, hp, hc'.1, hc'.2, rfl⟩
      · rw [if_neg hc]
        have hbadrest : rest.any (lineOutOfStock catalog) = true := by
          have hor : lineOutOfStock catalog item = true ∨
              rest.any (lineOutOfStock catalog) = true := by
            have h := hbad
            rw [List.any_cons, Bool.or_eq_true] at h
            exact h
          rcases hor with h | h
          · exfalso
            simp only [lineOutOfStock, hp] at h
            exact hc h
          · exact h
        obtain ⟨item', p', hmem, hgp', htrack, hstock, heq⟩ := ih (n + 1) hfrest hbadrest
        refine ⟨item', p', List.mem_cons_of_mem _ hmem, hgp', htrack, hstock, ?_⟩
        cases hrec : processItemsTrace catalog rest (n + 1) with
        | mk res tr =>
            rw [hrec] at heq
            have hres : res = .error (.insufficientStock p'.title p'.inventory.stock item'.quantity) :=
              heq
            rw [hres]

/-- C4 counterexample: the request has a line (the second) whose product
tracks inventory with stock 0 < requested 1, yet `createOrder` fails with
the missing-product error for the first line, not with
`InsufficientStockError`, because the lines are validated in order. -/
theorem createOrder_insufficient_stock_counterexample :
    dataMixed.items.any (lineOutOfStock worldOut.catalog) = true ∧
    createOrder (some "u") dataMixed worldOut = (.error (.productNotFound "pA"), worldOut) ∧
    isInsufficientStockError (createOrder (some "u") dataMixed worldOut).1 = false := by
  decide

/-- C4 amended: when every requested line's product lookup succeeds and
some line's product tracks inventory with stock below the requested
quantity, `createOrder` fails with `InsufficientStockError` naming such a
product's title, its available stock, and the requested quantity, and the
world is returned unchanged: no order is persisted and no product stock
is mutated. -/
theorem createOrder_insufficient_stock (uid : String) (orderData : CreateOrderData) (w : World)
    (hfound : orderData.items.all (lineFound w.catalog) = true)
    (hbad : orderData.items.any (lineOutOfStock w.catalog) = true) :
    ∃ item p, item ∈ orderData.items ∧ getProductById w.catalog item.productId = some p ∧
      p.inventory.trackInventory = true ∧ p.inventory.stock < item.quantity ∧
      createOrder (some uid) orderData w =
        (.error (.insufficientStock p.title p.inventory.stock item.quantity), w) := by
  obtain ⟨item, p, hmem, hgp, htrack, hstock, heq⟩ :=
    processItemsTrace_insufficient w.catalog orderData.items 0 hfound hbad
  refine ⟨item, p, hmem, hgp, htrack, hstock, ?_⟩
  have hne : ¬ orderData.items.isEmpty = true := by
    intro he
    rw [List.isEmpty_iff] at he
    rw [he] at hmem
    cases hmem
  simp only [createOrder, processItems]
  rw [if_neg hne]
  cases hrec : processItemsTrace w.catalog orderData.items 0 with
  | mk res tr =>
      rw [hrec] at heq
      have hres : res = .error (.insufficientStock p.title p.inventory.stock item.quantity) := heq
      rw [hres]

/-- C4 witness: scenario 4 — a tracked product with stock 0 requested at
quantity 1 makes `createOrder` fail with the insufficient-stock error
naming product, available 0, requested 1, leaving the world unchanged. -/
theorem createOrder_insufficient_stock_witness :
    (∃ item p, item ∈ dataOut.items ∧ getProductById worldOut.catalog item.productId = some p ∧
      p.inventory.trackInventory = true ∧ p.inventory.stock < item.quantity ∧
      createOrder (some "u") dataOut worldOut =
        (.error (.insufficientStock p.title p.inventory.stock item.quantity), worldOut)) ∧
    createOrder (some "u") dataOut worldOut =
      (.error (.insufficientStock "P1" 0 1), worldOut) :=
  ⟨createOrder_insufficient_stock "u" dataOut worldOut (by decide) (by decide), by decide⟩

/-! ## Cent-valued rationals and round2 -/

theorem isCents_round2 (x : ℚ) : IsCents (round2 x) :=
  ⟨round (x * 100), rfl⟩

theorem IsCents.round2_eq {x : ℚ} (h : IsCents x) : round2 x = x := by
  obtain ⟨k, rfl⟩ := h
  unfold round2
  rw [div_mul_cancel₀ _ (by norm_num : (100:ℚ) ≠ 0), round_intCast]

theorem isCents_zero : IsCents 0 :=
  ⟨0, by norm_num⟩

theorem IsCents.add {x y : ℚ} (hx : IsCents x) (hy : IsCents y) : IsCents (x + y) := by
  obtain ⟨a, rfl⟩ := hx
  obtain ⟨b, rfl⟩ := hy
  exact ⟨a + b, by push_cast; ring⟩

theorem isCents_sum (l : List ℚ) (h : ∀ x ∈ l, IsCents x) : IsCents l.sum := by
  induction l with
  | nil => simpa using isCents_zero
  | cons x xs ih =>
      rw [List.sum_cons]
      exact (h x (List.mem_cons_self _ _)).add (ih fun y hy => h y (List.mem_cons_of_mem _ hy))

theorem round2_zero : round2 0 = 0 := by
  unfold round2
  rw [zero_mul, round_zero]
  norm_num

/-! ## Shape of the order items produced by the loop -/

theorem processItemsTrace_ok_shape (catalog : Catalog) (reqs : List CreateOrderItem) (n : ℕ)
    (items' : List OrderItem) (h : (processItemsTrace catalog reqs n).1 = .ok items') :
    ∀ item ∈ items', item.totalPrice = round2 (item.priceAtTime * (item.quantity : ℚ)) := by
  induction reqs generalizing n items' with
  | nil =>
      simp only [processItemsTrace] at h
      have : items' = [] := by simpa using h.symm
      subst this
      simp
  | cons item rest ih =>
      simp only [processItemsTrace] at h
      split at h
      · simp at h
      · split at h
        · simp at h
        · split at h
          · simp at h
          · rename_i rest' tr hrec
            have hlist := (Except.ok.inj h).symm
            subst hlist
            intro it hit
            rcases List.mem_cons.mp hit with rfl | hmem
            · rfl
            · exact ih (n + 1) rest' (by rw [hrec]) it hmem

/-! ## calculateOrderSummary characterization and createOrder success path -/

theorem calculateOrderSummary_eq (items : List OrderItem) :
    calculateOrderSummary items =
      { subtotal := round2 ((items.map (fun item => item.totalPrice)).sum)
        tax := round2 ((items.map (fun item => item.totalPrice)).sum * (8 / 100))
        shipping := round2
          (if 50 < (items.map (fun item => item.totalPrice)).sum then 0 else 999 / 100)
        discount := round2 0
        total := round2 ((items.map (fun item => item.totalPrice)).sum
          + (items.map (fun item => item.totalPrice)).sum * (8 / 100)
          + (if 50 < (items.map (fun item => item.totalPrice)).sum then 0 else 999 / 100)
          - 0) } := by
  have hs : items.foldl (fun sum item => sum + item.totalPrice) 0
      = (items.map (fun item => item.totalPrice)).sum := by
    rw [foldl_add_eq]
    simp
  simp only [calculateOrderSummary, hs]

theorem createOrder_ok_elim (user : Option String) (orderData : CreateOrderData) (w : World)
    (order : Order) (w' : World) (h : createOrder user orderData w = (.ok order, w')) :
    ∃ uid orderItems, user = some uid ∧
      processItems w.catalog orderData.items = .ok orderItems ∧
      order = { userId := uid, items := orderItems
                summary := calculateOrderSummary orderItems } := by
  cases user with
  | none => simp [createOrder] at h
  | some uid =>
      simp only [createOrder] at h
      split at h
      · simp at h
      · split at h
        · simp at h
        · rename_i orderItems hrec
          rw [Prod.mk.injEq] at h
          exact ⟨uid, orderItems, rfl, hrec, (Except.ok.inj h.1).symm⟩

/-! ## C2: order summary formulas -/

/-- C2: every successful `createOrder` produces line totals
`round2(price * quantity)`, a subtotal that is the rounded sum of the line
totals, tax `round2(subtotal * 0.08)`, shipping 0 when the subtotal
exceeds 50 and the 9.99 flat fee otherwise, and a zero discount. -/
theorem createOrder_summary_formulas (user : Option String) (orderData : CreateOrderData)
    (w : World) (order : Order) (w' : World)
    (h : createOrder user orderData w = (.ok order, w')) :
    (∀ item ∈ order.items, item.totalPrice = round2 (item.priceAtTime * (item.quantity : ℚ))) ∧
    order.summary.subtotal = round2 ((order.items.map (fun item => item.totalPrice)).sum) ∧
    order.summary.tax = round2 (order.summary.subtotal * (8 / 100)) ∧
    order.summary.shipping = (if 50 < order.summary.subtotal then (0:ℚ) else 999 / 100) ∧
    order.summary.discount = 0 := by
  obtain ⟨uid, orderItems, huser, hproc, horder⟩ :=
    createOrder_ok_elim user orderData w order w' h
  subst horder
  have hshape := processItemsTrace_ok_shape w.catalog orderData.items 0 orderItems hproc
  have hcents : IsCents ((orderItems.map (fun item => item.totalPrice)).sum) := by
    refine isCents_sum _ ?_
    intro x hx
    rcases List.mem_map.mp hx with ⟨it, hit, rfl⟩
    rw [hshape it hit]
    exact isCents_round2 _
  have hsub : round2 ((orderItems.map (fun item => item.totalPrice)).sum)
      = (orderItems.map (fun item => item.totalPrice)).sum := hcents.round2_eq
  refine ⟨hshape, ?_, ?_, ?_, ?_⟩
  · rw [calculateOrderSummary_eq]
  · rw [calculateOrderSummary_eq]
    show round2 (_ * (8/100)) = round2 (round2 _ * (8/100))
    rw [hsub]
  · rw [calculateOrderSummary_eq]
    show round2 (if 50 < _ then (0:ℚ) else 999 / 100)
        = (if 50 < round2 ((orderItems.map (fun item => item.totalPrice)).sum) then (0:ℚ)
           else 999 / 100)
    rw [hsub]
    by_cases h50 : (50:ℚ) < (orderItems.map (fun item => item.totalPrice)).sum
    · rw [if_pos h50, round2_zero]
    · rw [if_neg h50]
      exact IsCents.round2_eq ⟨999, by norm_num⟩
  · rw [calculateOrderSummary_eq]
    exact round2_zero

/-! ## C3: total law -/

theorem round2_total_core (k : ℤ) (sh : ℚ) (hsh : IsCents sh) :
    round2 ((k:ℚ)/100 + ((k:ℚ)/100) * (8/100) + sh - 0) =
    round2 ((k:ℚ)/100 + round2 (((k:ℚ)/100) * (8/100)) + sh - 0) := by
  obtain ⟨m, rfl⟩ := hsh
  have ht : (((k:ℚ)/100) * (8/100)) * 100 = ((2*k : ℤ):ℚ)/25 := by push_cast; ring
  have hr2 : round2 (((k:ℚ)/100) * (8/100)) = ((round (((2*k : ℤ):ℚ)/25) : ℤ):ℚ)/100 := by
    unfold round2
    rw [ht]
  rw [hr2]
  unfold round2
  have hL : ((k:ℚ)/100 + ((k:ℚ)/100) * (8/100) + (m:ℚ)/100 - 0) * 100
      = ((2*k : ℤ):ℚ)/25 + ((k + m : ℤ):ℚ) := by push_cast; ring
  have hR : ((k:ℚ)/100 + ((round (((2*k : ℤ):ℚ)/25) : ℤ):ℚ)/100 + (m:ℚ)/100 - 0) * 100
      = ((k + round (((2*k : ℤ):ℚ)/25) + m : ℤ):ℚ) := by push_cast; ring
  rw [hL, hR, round_add_int, round_intCast]
  push_cast
  ring

theorem isCents_lineSum (items : List OrderItem)
    (hshape : ∀ item ∈ items,
      item.totalPrice = round2 (item.priceAtTime * (item.quantity : ℚ))) :
    IsCents ((items.map (fun item => item.totalPrice)).sum) := by
  refine isCents_sum _ ?_
  intro x hx
  rcases List.mem_map.mp hx with ⟨it, hit, rfl⟩
  rw [hshape it hit]
  exact isCents_round2 _

/-- C3: for every order a successful `createOrder` produces, the published
total equals `round2` of published subtotal + tax + shipping − discount. -/
theorem createOrder_total_law (user : Option String) (orderData : CreateOrderData)
    (w : World) (order : Order) (w' : World)
    (h : createOrder user orderData w = (.ok order, w')) :
    order.summary.total = round2 (order.summary.subtotal + order.summary.tax +
      order.summary.shipping - order.summary.discount) := by
  obtain ⟨uid, orderItems, huser, hproc, horder⟩ :=
    createOrder_ok_elim user orderData w order w' h
  subst horder
  have hshape := processItemsTrace_ok_shape w.catalog orderData.items 0 orderItems hproc
  have hcents := isCents_lineSum orderItems hshape
  have hsub : round2 ((orderItems.map (fun item => item.totalPrice)).sum)
      = (orderItems.map (fun item => item.totalPrice)).sum := hcents.round2_eq
  have hship : round2
        (if 50 < (orderItems.map (fun item => item.totalPrice)).sum then (0:ℚ) else 999 / 100)
      = (if 50 < (orderItems.map (fun item => item.totalPrice)).sum then (0:ℚ) else 999 / 100) := by
    by_cases h50 : (50:ℚ) < (orderItems.map (fun item => item.totalPrice)).sum
    · rw [if_pos h50]
      exact round2_zero
    · rw [if_neg h50]
      exact IsCents.round2_eq ⟨999, by norm_num⟩
  obtain ⟨k, hk⟩ := hcents
  rw [calculateOrderSummary_eq]
  show round2 ((orderItems.map (fun item => item.totalPrice)).sum
        + (orderItems.map (fun item => item.totalPrice)).sum * (8 / 100)
        + (if 50 < (orderItems.map (fun item => item.totalPrice)).sum then (0:ℚ) else 999 / 100)
        - 0)
      = round2 (round2 ((orderItems.map (fun item => item.totalPrice)).sum)
        + round2 ((orderItems.map (fun item => item.totalPrice)).sum * (8 / 100))
        + round2
            (if 50 < (orderItems.map (fun item => item.totalPrice)).sum then (0:ℚ) else 999 / 100)
        - round2 0)
  rw [hsub, hship, round2_zero, hk]
  refine round2_total_core k _ ?_
  by_cases h50 : (50:ℚ) < (k:ℚ)/100
  · rw [if_pos h50]
    exact isCents_zero
  · rw [if_neg h50]
    exact ⟨999, by norm_num⟩

/-! ## Concrete scenario-3 run shared by the summary witnesses -/

theorem processItems_run110 : processItems world110.catalog data110.items = .ok order110.items := by
  simp [processItems, processItemsTrace, data110, world110, getProductById, prod30, prod80,
    order110, round2, round_eq]
  norm_num

theorem createOrder_run110 :
    createOrder (some "u") data110 world110 =
      (.ok order110, { orders := [order110], catalog := world110.catalog }) := by
  simp only [createOrder, processItems_run110]
  rw [if_neg (by decide : ¬ data110.items.isEmpty = true)]
  simp [calculateOrderSummary, order110, round2, round_eq, prod30, prod80, world110,
    applyStockUpdates, applyStockUpdate]
  norm_num

/-- C2 witness: scenario 3 — the concrete two-line order (prices 30 and
80, one unit each) runs successfully with subtotal 110.00, tax 8.80, free
shipping, discount 0 and total 118.80, and instantiates the summary
formulas. -/
theorem createOrder_summary_formulas_witness :
    createOrder (some "u") data110 world110 =
      (.ok order110, { orders := [order110], catalog := world110.catalog }) ∧
    order110.summary.subtotal = 110 ∧ order110.summary.tax = 8.8 ∧
    order110.summary.shipping = 0 ∧ order110.summary.discount = 0 ∧
    order110.summary.total = 118.8 ∧
    ((∀ item ∈ order110.items,
        item.totalPrice = round2 (item.priceAtTime * (item.quantity : ℚ))) ∧
      order110.summary.subtotal =
        round2 ((order110.items.map (fun item => item.totalPrice)).sum) ∧
      order110.summary.tax = round2 (order110.summary.subtotal * (8 / 100)) ∧
      order110.summary.shipping =
        (if 50 < order110.summary.subtotal then (0:ℚ) else 999 / 100) ∧
      order110.summary.discount = 0) :=
  ⟨createOrder_run110, rfl, rfl, rfl, rfl, rfl,
    createOrder_summary_formulas _ _ _ _ _ createOrder_run110⟩

/-- C3 witness: the scenario-3 order satisfies the total law, with total
118.80. -/
theorem createOrder_total_law_witness :
    createOrder (some "u") data110 world110 =
      (.ok order110, { orders := [order110], catalog := world110.catalog }) ∧
    order110.summary.total = round2 (order110.summary.subtotal + order110.summary.tax +
      order110.summary.shipping - order110.summary.discount) ∧
    order110.summary.total = 118.8 :=
  ⟨createOrder_run110, createOrder_total_law _ _ _ _ _ createOrder_run110, rfl⟩

end ECommerce
